/-
Verification development for the SecondHandMarketMaker frontend
orchestration core: the request-coordinator state machine (`handleSearch`,
`handleRefinementSubmit`, `executeSearch` in the Home page component), the
debounced sell-advisor recompute scheduler (`refreshSellAdvisor`), the API
facade (`lib/api.ts`) and the cosmetic progress simulator
(`getSimulatedProgress` / `ProgressLoader`).

The TypeScript code is shallowly embedded: JavaScript numbers are modelled
as `ℚ` (money, timestamps) or `ℕ` (counters), `Record<string, string>`
values as association lists in iteration order, promise outcomes as
`Except`, and the asynchronous interleavings of timers and remote-call
completions as explicit event traces over a step function.
-/
import Mathlib

set_option linter.unusedVariables false

namespace MarketMaker

/-! ### Data model (frontend/src/lib/types.ts) -/

/-- Mode of the search page: buy-side analytics or sell-side advice. -/
inductive Mode where
  | buy
  | sell
deriving DecidableEq, Repr

/-- Confidence enum used by both analysis responses. -/
inductive Confidence where
  | high
  | medium
  | low
deriving DecidableEq, Repr

/-- One pricing tier from the sell advisor. -/
structure PriceTier where
  name : String
  list_price : ℚ
  ebay_fee : ℚ
  shipping : ℚ
  net_payout : ℚ
deriving DecidableEq, Repr

/-- Sell-advisor pricing response (`SellAdvisorResponse`). -/
structure SellAdvisorResponse where
  query : String
  fair_value : ℚ
  mean_price : ℚ
  min_price : ℚ
  max_price : ℚ
  sample_size : ℕ
  std_dev : ℚ
  confidence : Confidence
  tiers : List PriceTier
  recommended_tier : Option String
deriving DecidableEq, Repr

/-- One buy-side deal listing (`DealItem`); condition enrichment fields omitted
as no claim inspects them. -/
structure DealItem where
  title : String
  price : ℚ
  url : String
  discount_pct : ℚ
  fair_value : ℚ
deriving DecidableEq, Repr

/-- Buy-side analytics response (`AnalyzeResponse`); the filtered-items list is
modelled by its length only (`deals_eliminated`), as no claim inspects it. -/
structure AnalyzeResponse where
  query : String
  fair_value : ℚ
  mean_price : ℚ
  min_price : ℚ
  max_price : ℚ
  sample_size : ℕ
  std_dev : ℚ
  confidence : Confidence
  deals : List DealItem
  total_active : ℕ
  deals_eliminated : ℕ
deriving DecidableEq, Repr

/-- One AI-generated form-field descriptor (`ProductField`). -/
structure ProductField where
  name : String
  key : String
  options : List String
deriving DecidableEq, Repr

/-- Response of the product-fields endpoint (`ProductFieldsResponse`). -/
structure ProductFieldsResponse where
  query : String
  fields : List ProductField
deriving DecidableEq, Repr

/-- Response of the query-refinement endpoint (`RefinementResponse`). -/
structure RefinementResponse where
  query : String
  needs_refinement : Bool
  fields : List ProductField
deriving DecidableEq, Repr

/-- A thrown JavaScript error as observed by the coordinator: `message` is
`none` when the thrown value has no `message` property. -/
structure JsError where
  message : Option String
deriving DecidableEq, Repr

/-! ### JavaScript record and string primitives

`Record<string, string>` values are association lists in key-iteration
order, assumed duplicate-free as JavaScript object keys are unique. -/

/-- Property lookup on a record: the value at the first occurrence of `k`. -/
def jsLookup (m : List (String × String)) (k : String) : Option String :=
  (m.find? (fun kv => kv.1 = k)).map (fun kv => kv.2)

/-- Spread merge `\x7b...a, ...b\x7d`: keys of `a` first (values overridden by
`b` where present), then the keys of `b` not already in `a`. -/
def spreadMerge (a b : List (String × String)) : List (String × String) :=
  (a.map fun kv => (kv.1, (jsLookup b kv.1).getD kv.2))
    ++ b.filter (fun kv => !(a.any (fun kv' => kv'.1 = kv.1)))

/-- JavaScript `Array.prototype.join(sep)` on a list of strings. -/
def jsJoin (sep : String) : List String → String
  | [] => ""
  | x :: xs => xs.foldl (fun acc v => acc ++ sep ++ v) x

/-- JavaScript `m || fallback` on an optional string: the fallback is taken
when the value is absent or empty (falsy). -/
def jsOrNonEmpty (m : Option String) (fallback : String) : String :=
  match m with
  | some s => if s = "" then fallback else s
  | none => fallback

/-- Message extraction in a catch block:
`err instanceof Error ? err.message : "Something went wrong"`. -/
def caughtMessage (e : JsError) : String :=
  (e.message).getD "Something went wrong"

/-! ### Request coordinator (Home component, `src/unnamed/part_002`) -/

/-- React state of the Home component relevant to the coordinator claims. -/
structure HomeState where
  mode : Mode
  isLoading : Bool
  showResults : Bool
  buyData : Option AnalyzeResponse
  sellData : Option SellAdvisorResponse
  error : Option String
  productFields : List ProductField
  fieldsLoading : Bool
  sellCondition : Option ℕ
  sellDetails : List (String × String)
  detectedAttrs : List (String × String)
  refinementFields : List ProductField
  refinementSelections : List (String × String)
  currentSellQuery : String
deriving DecidableEq, Repr

/-- Remote invocations issued by the coordinator; `executePrimary` marks the
primary fetch (`analyzeProduct` in buy mode, `sellAdvisor` plus
`getProductFields` in sell mode) being launched with the given query. -/
inductive CoordAction where
  | executePrimary (query : String) (keepImage : Bool)
deriving DecidableEq, Repr

/-- Synchronous state resets performed at the top of `handleSearch`. -/
def handleSearchReset (keepImage : Bool) (s : HomeState) : HomeState :=
  let s1 := { s with
    isLoading := true, showResults := false, error := none,
    buyData := none, sellData := none, productFields := [],
    refinementFields := [], refinementSelections := [] }
  if keepImage then s1
  else { s1 with sellCondition := none, sellDetails := [], detectedAttrs := [] }

/-- The `handleSearch` continuation after the `refineQuery` call resolves
(or rejects): either pause for clarification (refinement needed and at least
one field), launch the primary fetch, or surface the error. Returns the new
state paired with the remote invocations issued. -/
def handleSearch (query : String) (keepImage : Bool)
    (refineOutcome : Except JsError RefinementResponse) (s : HomeState) :
    HomeState × List CoordAction :=
  let s0 := handleSearchReset keepImage s
  match refineOutcome with
  | .error e =>
      ({ s0 with error := some (caughtMessage e), showResults := true,
                 isLoading := false }, [])
  | .ok ref =>
      if ref.needs_refinement ∧ ref.fields.length > 0 then
        ({ s0 with refinementFields := ref.fields }, [])
      else
        (s0, [.executePrimary query keepImage])

/-- The `handleRefinementSubmit` callback: builds the refined query by
appending the non-empty selected values, then executes the search with it.
Returns the refined query paired with the remote invocations issued. -/
def handleRefinementSubmit (baseQuery : String) (keepImage : Bool)
    (values : List (String × String)) : String × List CoordAction :=
  let parts := (values.map Prod.snd).filter (fun v => v ≠ "")
  let refinedQuery :=
    if parts.length > 0 then baseQuery ++ " " ++ jsJoin " " parts
    else baseQuery
  (refinedQuery, [.executePrimary refinedQuery keepImage])

/-- Modelled from the spec wording of the effective query ("appending the
chosen non-empty values (space-joined) to the original query"), as a single
left-to-right fold over the selection map; compared against the source's
`handleRefinementSubmit` construction. -/
def specEffectiveQuery (baseQuery : String) (values : List (String × String)) :
    String :=
  values.foldl (fun acc kv => if kv.2 = "" then acc else acc ++ " " ++ kv.2)
    baseQuery

/-- The `executeSearch` body, with each remote promise outcome passed in
explicitly. In sell mode the advisor and product-fields calls are awaited
together (`Promise.allSettled`); an advisor rejection is rethrown before the
fields result is inspected, so it reaches the catch block. -/
def executeSearch (query : String) (keepImage : Bool)
    (refinementValues : Option (List (String × String)))
    (buyOutcome : Except JsError AnalyzeResponse)
    (advisorOutcome : Except JsError SellAdvisorResponse)
    (fieldsOutcome : Except JsError ProductFieldsResponse)
    (s : HomeState) : HomeState :=
  if s.mode = Mode.buy then
    match buyOutcome with
    | .ok r => { s with buyData := some r, isLoading := false }
    | .error e =>
        { s with error := some (caughtMessage e), showResults := true,
                 isLoading := false }
  else
    let s0 := { s with currentSellQuery := query, fieldsLoading := false }
    match advisorOutcome with
    | .error e =>
        { s0 with
          error := some (jsOrNonEmpty e.message "Sell analysis failed"),
          showResults := true, isLoading := false }
    | .ok r =>
        let s1 := { s0 with sellData := some r }
        let s2 :=
          match fieldsOutcome with
          | .ok f => { s1 with productFields := f.fields }
          | .error _ => s1
        let s3 :=
          match refinementValues with
          | some rv =>
              if rv.length > 0 then
                { s2 with refinementSelections := rv,
                          sellDetails := spreadMerge rv s2.sellDetails }
              else s2
          | none => s2
        { s3 with isLoading := false }

/-! ### Search form guard (SearchHeader, `src/unnamed/part_003`) -/

/-- The form submit handler of the search bar: invokes the search with the
trimmed query only when it is non-empty and no search is in flight;
returns the invoked query, or `none` when no search is invoked. -/
def handleSubmit (query : String) (isLoading : Bool) : Option String :=
  if query.trim ≠ "" ∧ isLoading = false then some query.trim else none

/-! ### API facade (`src/frontend/src/lib/api.ts`)

Relevant to cancellation is only how `sellAdvisor` builds its `fetch`
request: its init object carries `method`, `headers` and `body`, and no
`signal` entry, so no abort handle ever reaches the network layer.
Abort handles (`AbortSignal`s) are identified by the generation number of
the `AbortController` that created them. -/

/-- A `fetch` request as issued by the facade. -/
structure FetchRequest where
  url : String
  method : String
  body : String
  signal : Option ℕ
deriving DecidableEq, Repr

/-- The request `sellAdvisor(query, condition, details, signal)` issues.
The function signature in `api.ts` declares only `query`, `condition` and
`details`; a fourth argument is accepted here to model the call site in
`refreshSellAdvisor`, and — exactly as in the source — it is dropped: the
`fetch` init has no `signal` property. The JSON body is modelled privately
by its components. -/
def sellAdvisorRequest (query : String) (condition : Option ℕ)
    (details : Option (List (String × String))) (signal : Option ℕ) :
    FetchRequest :=
  { url := "/api/sell-advisor"
    method := "POST"
    body := query ++ "|" ++ toString condition ++ "|" ++ toString details
    signal := none }

/-! ### Debounced recompute scheduler (`refreshSellAdvisor`)

The scheduler is embedded as a step function over explicit events:
a `schedule` event is one `refreshSellAdvisor(condition, details)` call,
a `timerFire` event is the 800 ms debounce timeout callback running, and
the `complete` events are the `sellAdvisor` promise resolving for the
dispatched call of a given generation. `AbortController`s are identified
by the generation whose `schedule` call created them. -/

/-- The pending debounce timer, with the values captured by its closure. -/
structure PendingTimer where
  deadline : ℚ
  gen : ℕ
  query : String
  condition : Option ℕ
  details : List (String × String)
deriving DecidableEq, Repr

/-- An in-flight `sellAdvisor` recompute call. -/
structure SchedCall where
  gen : ℕ
  query : String
  condition : Option ℕ
  details : List (String × String)
deriving DecidableEq, Repr

/-- State touched by `refreshSellAdvisor` and its callbacks. -/
structure SchedulerState where
  currentSellQuery : String
  refreshGeneration : ℕ
  pendingTimer : Option PendingTimer
  currentController : Option ℕ
  priceRefreshing : Bool
  sellData : Option SellAdvisorResponse
  pageError : Option String
  inFlight : List SchedCall
deriving DecidableEq, Repr

/-- Events driving the scheduler. `schedule t c d` is a call
`refreshSellAdvisor(c, d)` at time `t`; `timerFire t` is the debounce
timeout callback at time `t`; `completeOk g r` / `completeErr g isAbort`
are the remote call of generation `g` resolving or rejecting. -/
inductive SchedEvent where
  | schedule (t : ℚ) (condition : Option ℕ) (details : List (String × String))
  | timerFire (t : ℚ)
  | completeOk (gen : ℕ) (r : SellAdvisorResponse)
  | completeErr (gen : ℕ) (isAbort : Bool)
deriving DecidableEq, Repr

/-- Externally visible actions of a scheduler step. -/
inductive SchedAction where
  | abortSignal (gen : ℕ)
  | dispatch (gen : ℕ) (query : String) (condition : Option ℕ)
      (details : List (String × String)) (signal : Option ℕ)
deriving DecidableEq, Repr

/-- One scheduler step: the new state and the actions performed. -/
def schedStep (s : SchedulerState) : SchedEvent →
    SchedulerState × List SchedAction
  | .schedule t condition details =>
      if s.currentSellQuery = "" then (s, [])
      else
        let g := s.refreshGeneration + 1
        ({ s with
            priceRefreshing := true
            refreshGeneration := g
            pendingTimer := some
              { deadline := t + 800, gen := g, query := s.currentSellQuery,
                condition := condition, details := details }
            currentController := some g },
          match s.currentController with
          | some g0 => [.abortSignal g0]
          | none => [])
  | .timerFire t =>
      match s.pendingTimer with
      | some tm =>
          if tm.deadline = t then
            ({ s with
                pendingTimer := none
                inFlight := s.inFlight ++
                  [{ gen := tm.gen, query := tm.query,
                     condition := tm.condition, details := tm.details }] },
              [.dispatch tm.gen tm.query tm.condition tm.details
                (some tm.gen)])
          else (s, [])
      | none => (s, [])
  | .completeOk g r =>
      ({ s with
          inFlight := s.inFlight.filter (fun c => c.gen ≠ g)
          sellData := if g = s.refreshGeneration then some r else s.sellData
          priceRefreshing :=
            if g = s.refreshGeneration then false else s.priceRefreshing },
        [])
  | .completeErr g isAbort =>
      ({ s with
          inFlight := s.inFlight.filter (fun c => c.gen ≠ g)
          priceRefreshing :=
            if g = s.refreshGeneration then false else s.priceRefreshing },
        [])

/-- Run the scheduler over a list of events, returning the final state. -/
def runSched : SchedulerState → List SchedEvent → SchedulerState
  | s, [] => s
  | s, e :: es => runSched (schedStep s e).1 es

/-- Collect the actions performed along a list of events. -/
def runSchedActs : SchedulerState → List SchedEvent → List SchedAction
  | _, [] => []
  | s, e :: es => (schedStep s e).2 ++ runSchedActs (schedStep s e).1 es

/-- Is this action a remote dispatch? -/
def SchedAction.isDispatch : SchedAction → Bool
  | .dispatch _ _ _ _ _ => true
  | _ => false

/-- The remote dispatches among a list of actions. -/
def dispatches (acts : List SchedAction) : List SchedAction :=
  acts.filter SchedAction.isDispatch

/-- Scheduler state right after `executeSearch` set the active sell query. -/
def initScheduler (q : String) (d : Option SellAdvisorResponse) :
    SchedulerState :=
  { currentSellQuery := q, refreshGeneration := 0, pendingTimer := none,
    currentController := none, priceRefreshing := false, sellData := d,
    pageError := none, inFlight := [] }

/-- Generation bookkeeping invariant: every outstanding call and the pending
timer carry a token no newer than the current generation. -/
def SchedInv (s : SchedulerState) : Prop :=
  (∀ c ∈ s.inFlight, c.gen ≤ s.refreshGeneration) ∧
  (∀ tm, s.pendingTimer = some tm → tm.gen ≤ s.refreshGeneration)

/-- Is this event a `refreshSellAdvisor` call? -/
def SchedEvent.isSchedule : SchedEvent → Bool
  | .schedule _ _ _ => true
  | _ => false

/-- Burst of schedule calls: timestamps are nondecreasing and each call
arrives strictly within 800 ms of the previous one. -/
def burstGapsOK : List (ℚ × Option ℕ × List (String × String)) → Prop
  | [] => True
  | [_] => True
  | a :: b :: rest => (a.1 ≤ b.1 ∧ b.1 < a.1 + 800) ∧
      burstGapsOK (b :: rest)

/-- The schedule events of a burst. -/
def burstSchedules (burst : List (ℚ × Option ℕ × List (String × String))) :
    List SchedEvent :=
  burst.map (fun b => SchedEvent.schedule b.1 b.2.1 b.2.2)

/-! ### Progress simulator (ProgressLoader component)

The simulated progress curve `getSimulatedProgress` uses `Math.exp`; the
exponential is abstracted as a parameter `e : ℚ → ℚ` standing for
`x ↦ Math.exp x`. The theorems below assume of `e` only that it is
monotone on nonpositive arguments and maps them into `[0, 1]` — both true
of the real exponential on the nonpositive reals, which is where the
source evaluates it (`-speed * t` with `t ≥ 0`). -/

/-- The two-segment cosmetic progress curve (`getSimulatedProgress`):
a linear ramp for the first 3000 ms, then an exponential approach toward
the ceiling (20 when paused, 92 otherwise). `elapsed` is in milliseconds. -/
def getSimulatedProgress (e : ℚ → ℚ) (mode : Mode) (isPaused : Bool)
    (elapsed : ℚ) : ℚ :=
  let maxProgress : ℚ := if isPaused then 20 else 92
  let speed : ℚ := if mode = Mode.buy then 6/100 else 8/100
  if elapsed < 3000 then
    min (if isPaused then (20 : ℚ) else 25) (elapsed / 3000 * 25)
  else
    let t := (elapsed - 3000) / 1000
    let base : ℚ := 25
    let remaining := maxProgress - base
    let eased := remaining * (1 - e (-(speed * t)))
    min maxProgress (base + eased)

/-- React state of the `ProgressLoader` component. -/
structure LoaderState where
  progress : ℚ
  visible : Bool
  completed : Bool
  startTime : ℚ
  wasLoading : Bool
  rafActive : Bool
  completionTimer : Option ℚ
deriving DecidableEq, Repr

/-- Events driving the loader. `propsEffect now isLoading isPaused` is one run
of the main effect after the `isLoading` / `isPaused` inputs change;
`frame now` is one `requestAnimationFrame` tick (scheduled only while the
update loop is active, hence always with the unpaused curve); `graceFire now`
is the 700 ms completion-hold timeout callback. -/
inductive LoaderEvent where
  | propsEffect (now : ℚ) (isLoading : Bool) (isPaused : Bool)
  | frame (now : ℚ)
  | graceFire (now : ℚ)
deriving DecidableEq, Repr

/-- One loader step. -/
def stepLoader (e : ℚ → ℚ) (mode : Mode) (s : LoaderState) :
    LoaderEvent → LoaderState
  | .propsEffect now isLoading isPaused =>
      if isLoading then
        let s1 := { s with wasLoading := true, completionTimer := none }
        let s2 :=
          if s1.progress = (0 : ℚ) ∨ s1.completed = true then
            { s1 with visible := true, completed := false, progress := 0,
                      startTime := now }
          else s1
        if isPaused then { s2 with rafActive := false }
        else { s2 with rafActive := true }
      else if s.wasLoading then
        { s with wasLoading := false, rafActive := false, progress := 100,
                 completed := true, completionTimer := some (now + 700) }
      else s
  | .frame now =>
      if s.rafActive then
        { s with progress :=
            getSimulatedProgress e mode false (now - s.startTime) }
      else s
  | .graceFire now =>
      match s.completionTimer with
      | some tf =>
          if tf = now then
            { s with completionTimer := none, visible := false,
                     progress := 0, completed := false }
          else s
      | none => s

/-- Run the loader over a list of events. -/
def runLoader (e : ℚ → ℚ) (mode : Mode) :
    LoaderState → List LoaderEvent → LoaderState
  | s, [] => s
  | s, ev :: evs => runLoader e mode (stepLoader e mode s ev) evs

/-- Initial loader state (all `useState` initialisers). -/
def initLoader : LoaderState :=
  { progress := 0, visible := false, completed := false, startTime := 0,
    wasLoading := false, rafActive := false, completionTimer := none }

/-- Timestamp of a loader event. -/
def LoaderEvent.time : LoaderEvent → ℚ
  | .propsEffect now _ _ => now
  | .frame now => now
  | .graceFire now => now

/-- Chronological trace: event timestamps never decrease, starting at `t0`. -/
def chronLoader (t0 : ℚ) : List LoaderEvent → Prop
  | [] => True
  | ev :: evs => t0 ≤ ev.time ∧ chronLoader ev.time evs

/-- Stand-in for `Math.exp` used to evaluate concrete loader traces on their
linear-ramp segment, where the exponential is never consulted; it satisfies
the monotonicity and range assumptions of the loader theorems. -/
def expStub : ℚ → ℚ := fun _ => 1

/-! ### Association-list lemmas for the spread merge -/

theorem jsLookup_append (x y : List (String × String)) (k : String) :
    jsLookup (x ++ y) k =
      match jsLookup x k with
      | some v => some v
      | none => jsLookup y k := by
  induction x with
  | nil => simp [jsLookup]
  | cons kv x ih =>
    by_cases h : kv.1 = k
    · simp [jsLookup, List.find?_cons, h]
    · simpa [jsLookup, List.find?_cons, h] using ih

theorem jsLookup_map_override (a b : List (String × String)) (k : String) :
    jsLookup (a.map fun kv => (kv.1, (jsLookup b kv.1).getD kv.2)) k =
      (jsLookup a k).map (fun v => (jsLookup b k).getD v) := by
  induction a with
  | nil => simp [jsLookup]
  | cons kv a ih =>
    by_cases h : kv.1 = k
    · subst h; simp [jsLookup, List.find?_cons]
    · simpa [jsLookup, List.find?_cons, h] using ih

theorem jsLookup_cons_ne (kv : String × String)
    (l : List (String × String)) (k : String) (h : kv.1 ≠ k) :
    jsLookup (kv :: l) k = jsLookup l k := by
  simp [jsLookup, List.find?_cons, h]

theorem jsLookup_filter_fresh (a b : List (String × String)) (k : String) :
    jsLookup (b.filter fun kv => !(a.any fun kv' => kv'.1 = kv.1)) k =
      if a.any (fun kv' => kv'.1 = k) then none else jsLookup b k := by
  induction b with
  | nil => simp [jsLookup]
  | cons kv b ih =>
    by_cases ha : a.any (fun kv' => kv'.1 = kv.1)
    · have hdrop : (kv :: b).filter (fun kv => !(a.any fun kv' => kv'.1 = kv.1))
          = b.filter (fun kv => !(a.any fun kv' => kv'.1 = kv.1)) := by
        simp [List.filter_cons, ha]
      by_cases hk : kv.1 = k
      · subst hk
        rw [hdrop, ih]
        simp [ha]
      · rw [hdrop, ih, jsLookup_cons_ne kv b k hk]
    · have hkeep : (kv :: b).filter (fun kv => !(a.any fun kv' => kv'.1 = kv.1))
          = kv :: b.filter (fun kv => !(a.any fun kv' => kv'.1 = kv.1)) := by
        simp [List.filter_cons, ha]
      by_cases hk : kv.1 = k
      · subst hk
        rw [hkeep]
        simp [ha, jsLookup, List.find?_cons]
      · rw [hkeep, jsLookup_cons_ne kv _ k hk, ih, jsLookup_cons_ne kv b k hk]

theorem jsLookup_isSome_any (a : List (String × String)) (k : String) :
    (jsLookup a k).isSome = a.any (fun kv => kv.1 = k) := by
  induction a with
  | nil => simp [jsLookup]
  | cons kv a ih =>
    by_cases h : kv.1 = k
    · simp [jsLookup, List.find?_cons, h]
    · simpa [jsLookup, List.find?_cons, h] using ih

/-! ### String-join lemmas for the effective query -/

theorem foldl_append_space (xs : List String) : ∀ (b v : String),
    b ++ " " ++ xs.foldl (fun acc w => acc ++ " " ++ w) v =
      xs.foldl (fun acc w => acc ++ " " ++ w) (b ++ " " ++ v) := by
  induction xs with
  | nil => intro b v; rfl
  | cons x xs ih =>
    intro b v
    simp only [List.foldl_cons]
    rw [ih]
    congr 1
    simp [String.append_assoc]

theorem condFold_eq_filter_fold (l : List String) : ∀ (b : String),
    l.foldl (fun acc v => if v = "" then acc else acc ++ " " ++ v) b =
      (l.filter (fun v => v ≠ "")).foldl (fun acc v => acc ++ " " ++ v) b := by
  induction l with
  | nil => intro b; rfl
  | cons v l ih =>
    intro b
    by_cases hv : v = "" <;>
      simp [List.foldl_cons, List.filter_cons, hv, ih]

theorem joined_eq_fold (m : List String) (b : String) :
    (if m.length > 0 then b ++ " " ++ jsJoin " " m else b) =
      m.foldl (fun acc v => acc ++ " " ++ v) b := by
  cases m with
  | nil => simp
  | cons v xs => simp [jsJoin, List.foldl_cons, foldl_append_space]

/-! ### Scheduler lemmas -/

theorem schedStep_preserves_query (s : SchedulerState) (e : SchedEvent) :
    ((schedStep s e).1).currentSellQuery = s.currentSellQuery := by
  cases e with
  | schedule t c d =>
      by_cases hq : s.currentSellQuery = "" <;> simp [schedStep, hq]
  | timerFire t =>
      cases hp : s.pendingTimer with
      | none => simp [schedStep, hp]
      | some tm =>
          by_cases hd : tm.deadline = t <;> simp [schedStep, hp, hd]
  | completeOk g r => simp [schedStep]
  | completeErr g b => simp [schedStep]

theorem schedStep_schedule_eq (s : SchedulerState) (t : ℚ) (c : Option ℕ)
    (d : List (String × String)) (hq : s.currentSellQuery ≠ "") :
    (schedStep s (SchedEvent.schedule t c d)).1 =
      { s with
        priceRefreshing := true
        refreshGeneration := s.refreshGeneration + 1
        pendingTimer := some
          { deadline := t + 800, gen := s.refreshGeneration + 1,
            query := s.currentSellQuery, condition := c, details := d }
        currentController := some (s.refreshGeneration + 1) } := by
  simp [schedStep, hq]

theorem schedStep_fire_eq (s : SchedulerState) (t : ℚ) (tm : PendingTimer)
    (hp : s.pendingTimer = some tm) (hd : tm.deadline = t) :
    (schedStep s (SchedEvent.timerFire t)).1 =
      { s with
        pendingTimer := none
        inFlight := s.inFlight ++
          [{ gen := tm.gen, query := tm.query, condition := tm.condition,
             details := tm.details }] } := by
  simp [schedStep, hp, hd]

theorem schedStep_inv (s : SchedulerState) (e : SchedEvent)
    (h : SchedInv s) : SchedInv (schedStep s e).1 := by
  obtain ⟨h1, h2⟩ := h
  cases e with
  | schedule t c d =>
      by_cases hq : s.currentSellQuery = ""
      · simpa [schedStep, hq] using ⟨h1, h2⟩
      · rw [schedStep_schedule_eq s t c d hq]
        constructor
        · intro cl hcl
          exact Nat.le_succ_of_le (h1 cl hcl)
        · intro tm htm
          simp only [Option.some.injEq] at htm
          rw [← htm]
  | timerFire t =>
      cases hp : s.pendingTimer with
      | none => simpa [schedStep, hp] using ⟨h1, h2⟩
      | some tm =>
          by_cases hd : tm.deadline = t
          · rw [schedStep_fire_eq s t tm hp hd]
            constructor
            · intro cl hcl
              rcases List.mem_append.mp hcl with hcl | hcl
              · exact h1 cl hcl
              · rw [List.mem_singleton.mp hcl]
                exact h2 tm hp
            · intro tm' htm'
              simp at htm'
          · simpa [schedStep, hp, hd] using ⟨h1, h2⟩
  | completeOk g r =>
      constructor
      · intro cl hcl
        simp only [schedStep, List.mem_filter] at hcl
        exact h1 cl hcl.1
      · intro tm htm
        simp only [schedStep] at htm
        exact h2 tm htm
  | completeErr g b =>
      constructor
      · intro cl hcl
        simp only [schedStep, List.mem_filter] at hcl
        exact h1 cl hcl.1
      · intro tm htm
        simp only [schedStep] at htm
        exact h2 tm htm

theorem runSched_inv (evs : List SchedEvent) :
    ∀ s : SchedulerState, SchedInv s → SchedInv (runSched s evs) := by
  induction evs with
  | nil => intro s h; exact h
  | cons e es ih => intro s h; exact ih _ (schedStep_inv s e h)

theorem runSched_gen_count (evs : List SchedEvent) :
    ∀ s : SchedulerState, s.currentSellQuery ≠ "" →
    (runSched s evs).refreshGeneration =
      s.refreshGeneration + (evs.filter SchedEvent.isSchedule).length := by
  induction evs with
  | nil => intro s hq; rfl
  | cons e es ih =>
      intro s hq
      have hq' : ((schedStep s e).1).currentSellQuery ≠ "" := by
        rw [schedStep_preserves_query]; exact hq
      have := ih ((schedStep s e).1) hq'
      cases e with
      | schedule t c d =>
          rw [show runSched s (SchedEvent.schedule t c d :: es) =
            runSched (schedStep s (SchedEvent.schedule t c d)).1 es from rfl,
            this]
          have hg : ((schedStep s (SchedEvent.schedule t c d)).1).refreshGeneration
              = s.refreshGeneration + 1 := by
            simp [schedStep, hq]
          rw [hg]
          simp [SchedEvent.isSchedule, List.filter_cons]
          omega
      | timerFire t =>
          rw [show runSched s (SchedEvent.timerFire t :: es) =
            runSched (schedStep s (SchedEvent.timerFire t)).1 es from rfl,
            this]
          have hg : ((schedStep s (SchedEvent.timerFire t)).1).refreshGeneration
              = s.refreshGeneration := by
            cases hp : s.pendingTimer with
            | none => simp [schedStep, hp]
            | some tm =>
                by_cases hd : tm.deadline = t <;> simp [schedStep, hp, hd]
          rw [hg]
          simp [SchedEvent.isSchedule, List.filter_cons]
      | completeOk g r =>
          rw [show runSched s (SchedEvent.completeOk g r :: es) =
            runSched (schedStep s (SchedEvent.completeOk g r)).1 es from rfl,
            this]
          have hg : ((schedStep s (SchedEvent.completeOk g r)).1).refreshGeneration
              = s.refreshGeneration := by simp [schedStep]
          rw [hg]
          simp [SchedEvent.isSchedule, List.filter_cons]
      | completeErr g b =>
          rw [show runSched s (SchedEvent.completeErr g b :: es) =
            runSched (schedStep s (SchedEvent.completeErr g b)).1 es from rfl,
            this]
          have hg : ((schedStep s (SchedEvent.completeErr g b)).1).refreshGeneration
              = s.refreshGeneration := by simp [schedStep]
          rw [hg]
          simp [SchedEvent.isSchedule, List.filter_cons]

theorem runSchedActs_append (xs ys : List SchedEvent) :
    ∀ s : SchedulerState, runSchedActs s (xs ++ ys) =
      runSchedActs s xs ++ runSchedActs (runSched s xs) ys := by
  induction xs with
  | nil => intro s; rfl
  | cons e es ih =>
      intro s
      show (schedStep s e).2 ++ runSchedActs (schedStep s e).1 (es ++ ys) = _
      rw [ih]
      simp [runSchedActs, runSched, List.append_assoc]

theorem schedule_acts_no_dispatch (s : SchedulerState) (t : ℚ)
    (c : Option ℕ) (d : List (String × String)) :
    dispatches (schedStep s (SchedEvent.schedule t c d)).2 = [] := by
  by_cases hq : s.currentSellQuery = ""
  · simp [schedStep, hq, dispatches]
  · cases hc : s.currentController with
    | none => simp [schedStep, hq, hc, dispatches]
    | some g0 =>
        simp [schedStep, hq, hc, dispatches, List.filter,
          SchedAction.isDispatch]

theorem burst_schedules_no_dispatch
    (bs : List (ℚ × Option ℕ × List (String × String))) :
    ∀ s : SchedulerState,
      dispatches (runSchedActs s (burstSchedules bs)) = [] := by
  induction bs with
  | nil => intro s; rfl
  | cons b bs ih =>
      intro s
      show dispatches ((schedStep s (SchedEvent.schedule b.1 b.2.1 b.2.2)).2
        ++ runSchedActs _ (burstSchedules bs)) = []
      rw [dispatches, List.filter_append, ← dispatches, ← dispatches,
        schedule_acts_no_dispatch, ih]
      rfl

theorem runSched_burst_state (bN : ℚ × Option ℕ × List (String × String))
    (bs : List (ℚ × Option ℕ × List (String × String))) :
    ∀ (s : SchedulerState), s.currentSellQuery ≠ "" →
    runSched s (burstSchedules (bs ++ [bN])) =
      { s with
        priceRefreshing := true
        refreshGeneration := s.refreshGeneration + bs.length + 1
        pendingTimer := some
          { deadline := bN.1 + 800,
            gen := s.refreshGeneration + bs.length + 1,
            query := s.currentSellQuery, condition := bN.2.1,
            details := bN.2.2 }
        currentController := some (s.refreshGeneration + bs.length + 1) } := by
  induction bs with
  | nil =>
      intro s hq
      show (schedStep s (SchedEvent.schedule bN.1 bN.2.1 bN.2.2)).1 = _
      simp [schedStep, hq]
  | cons b bs ih =>
      intro s hq
      show runSched (schedStep s (SchedEvent.schedule b.1 b.2.1 b.2.2)).1
        (burstSchedules (bs ++ [bN])) = _
      rw [ih _ (by rw [schedStep_preserves_query]; exact hq)]
      rw [schedStep_schedule_eq s b.1 b.2.1 b.2.2 hq]
      simp [SchedulerState.mk.injEq, PendingTimer.mk.injEq]
      omega

/-! ### Demonstration values used by witnesses -/

/-- A concrete sell-advisor response. -/
def demoResp : SellAdvisorResponse :=
  { query := "iPhone", fair_value := 100, mean_price := 100, min_price := 50,
    max_price := 150, sample_size := 10, std_dev := 5,
    confidence := Confidence.high, tiers := [], recommended_tier := none }

/-- A second concrete sell-advisor response, distinct from `demoResp`. -/
def demoResp2 : SellAdvisorResponse :=
  { demoResp with fair_value := 120 }

/-- A concrete refinement response requiring clarification. -/
def demoRef : RefinementResponse :=
  { query := "iPhone", needs_refinement := true,
    fields := [{ name := "Storage", key := "storage",
                 options := ["64GB", "128GB", "256GB"] }] }

/-- A concrete Home-component state in sell mode mid-submission. -/
def demoHome : HomeState :=
  { mode := Mode.sell, isLoading := true, showResults := false,
    buyData := none, sellData := none, error := none, productFields := [],
    fieldsLoading := false, sellCondition := none, sellDetails := [],
    detectedAttrs := [], refinementFields := [], refinementSelections := [],
    currentSellQuery := "" }

/-- A concrete scheduler event trace: two schedules, both of whose timers
fire (the environment may attempt the first fire, which misses, as the
timer was cleared; here both fires are at their own deadlines, the first
being superseded before it can fire is the C2 scenario — in this trace the
first timer is cleared by the second schedule, so only the second fires). -/
def demoEvs : List SchedEvent :=
  [ .schedule 0 (some 7) [("color", "black")],
    .schedule 200 (some 8) [("color", "black")],
    .timerFire 1000 ]

/-- A concrete scheduler state with two calls outstanding, generation 2
current. -/
def demoSched : SchedulerState :=
  { currentSellQuery := "iPhone", refreshGeneration := 2,
    pendingTimer := none, currentController := some 2,
    priceRefreshing := true, sellData := some demoResp, pageError := none,
    inFlight :=
      [ { gen := 1, query := "iPhone", condition := some 7, details := [] },
        { gen := 2, query := "iPhone", condition := some 8, details := [] } ] }

/-- A concrete scheduler state right after the first recompute dispatched:
generation 1 is current, its controller is the live abort handle. -/
def demoSchedAfterFirst : SchedulerState :=
  { currentSellQuery := "iPhone", refreshGeneration := 1,
    pendingTimer := none, currentController := some 1,
    priceRefreshing := true, sellData := none, pageError := none,
    inFlight :=
      [ { gen := 1, query := "iPhone", condition := some 7,
          details := [("color", "black")] } ] }

/-! ### Claim theorems -/

/-- C10: when a search is already in flight (`isLoading`) or the trimmed
query is empty, submitting the search form does not invoke the search
operation, so form-initiated submissions never overlap. -/
theorem searchForm_no_overlapping_submissions (query : String)
    (isLoading : Bool) (h : isLoading = true ∨ query.trim = "") :
    handleSubmit query isLoading = none := by
  unfold handleSubmit
  rcases h with h | h
  · subst h; simp
  · simp [h]

/-- Witness for C10 at a concrete input. -/
theorem searchForm_no_overlapping_submissions_witness :
    handleSubmit "iPhone" true = none :=
  searchForm_no_overlapping_submissions "iPhone" true (Or.inl rfl)

/-- C6: the effective query built by the clarification submit equals the base
query followed by the space-joined non-empty selection values in map
iteration order (stated as a left fold); when every selection value is empty
it equals the base query unchanged; and it is exactly the query with which
the primary fetch is executed. -/
theorem effective_query_construction (baseQuery : String) (keepImage : Bool)
    (values : List (String × String)) :
    (handleRefinementSubmit baseQuery keepImage values).1 =
      specEffectiveQuery baseQuery values ∧
    ((∀ v ∈ values.map Prod.snd, v = "") →
      (handleRefinementSubmit baseQuery keepImage values).1 = baseQuery) ∧
    (handleRefinementSubmit baseQuery keepImage values).2 =
      [CoordAction.executePrimary
        (handleRefinementSubmit baseQuery keepImage values).1 keepImage] := by
  refine ⟨?_, ?_, rfl⟩
  · show (if ((values.map Prod.snd).filter (fun v => v ≠ "")).length > 0
        then baseQuery ++ " " ++
          jsJoin " " ((values.map Prod.snd).filter (fun v => v ≠ ""))
        else baseQuery) = specEffectiveQuery baseQuery values
    rw [joined_eq_fold, specEffectiveQuery, ← condFold_eq_filter_fold,
      List.foldl_map]
  · intro hall
    show (if ((values.map Prod.snd).filter (fun v => v ≠ "")).length > 0
        then baseQuery ++ " " ++
          jsJoin " " ((values.map Prod.snd).filter (fun v => v ≠ ""))
        else baseQuery) = baseQuery
    have : (values.map Prod.snd).filter (fun v => v ≠ "") = [] := by
      simp only [List.filter_eq_nil_iff]
      intro v hv
      simp [hall v hv]
    rw [this]
    simp

/-- Witness for C6 at a concrete input: base query `iPhone` with selections
storage := 128GB and color := empty yields `iPhone 128GB`. -/
theorem effective_query_construction_witness :
    (handleRefinementSubmit "iPhone" false
      [("storage", "128GB"), ("color", "")]).1 = "iPhone 128GB" ∧
    (handleRefinementSubmit "iPhone" false [("storage", "")]).1 = "iPhone" := by
  constructor
  · rw [(effective_query_construction "iPhone" false
      [("storage", "128GB"), ("color", "")]).1]
    rfl
  · exact (effective_query_construction "iPhone" false [("storage", "")]).2.1
      (by decide)

/-- C5: once the refinement check resolves, exactly one continuation occurs:
clarification-pending (refinement needed with at least one parameter, no
primary fetch issued), executing the primary fetch, or the failed state on a
thrown error; the pending state is entered exactly when refinement is needed
and a parameter is returned, and the primary fetch is issued only by the
clarification submit thereafter. -/
theorem clarification_gating (query : String) (keepImage : Bool)
    (out : Except JsError RefinementResponse) (s : HomeState) :
    (((handleSearch query keepImage out s).1.refinementFields ≠ [] ∧
      (handleSearch query keepImage out s).2 = [] ∧
      (handleSearch query keepImage out s).1.error = none) ∨
     ((handleSearch query keepImage out s).1.refinementFields = [] ∧
      (handleSearch query keepImage out s).2 =
        [CoordAction.executePrimary query keepImage] ∧
      (handleSearch query keepImage out s).1.error = none) ∨
     ((handleSearch query keepImage out s).1.refinementFields = [] ∧
      (handleSearch query keepImage out s).2 = [] ∧
      (handleSearch query keepImage out s).1.error ≠ none)) ∧
    ((handleSearch query keepImage out s).1.refinementFields ≠ [] ↔
      ∃ ref, out = .ok ref ∧ ref.needs_refinement = true ∧
        ref.fields ≠ []) ∧
    (∀ (base : String) (vals : List (String × String)),
      (handleRefinementSubmit base keepImage vals).2 =
        [CoordAction.executePrimary
          (handleRefinementSubmit base keepImage vals).1 keepImage]) := by
  have hreset : ∀ ki s', (handleSearchReset ki s').refinementFields = [] ∧
      (handleSearchReset ki s').error = none := by
    intro ki s'
    unfold handleSearchReset
    cases ki <;> simp
  refine ⟨?_, ?_, fun base vals => rfl⟩
  · cases out with
    | error e =>
        right; right
        simp [handleSearch, (hreset keepImage s).1]
    | ok ref =>
        by_cases hc : ref.needs_refinement = true ∧ ref.fields.length > 0
        · left
          have hf : ref.fields ≠ [] := by
            intro hnil
            rw [hnil] at hc
            simp at hc
          simp [handleSearch, hc, hf, (hreset keepImage s).2]
        · right; left
          simp [handleSearch, hc, (hreset keepImage s).1,
            (hreset keepImage s).2]
  · constructor
    · intro hne
      cases out with
      | error e =>
          exfalso
          apply hne
          simp [handleSearch, (hreset keepImage s).1]
      | ok ref =>
          by_cases hc : ref.needs_refinement = true ∧ ref.fields.length > 0
          · refine ⟨ref, rfl, hc.1, ?_⟩
            intro hnil
            rw [hnil] at hc
            simp at hc
          · exfalso
            apply hne
            simp [handleSearch, hc, (hreset keepImage s).1]
    · rintro ⟨ref, rfl, hn, hf⟩
      have hc : ref.needs_refinement = true ∧ ref.fields.length > 0 :=
        ⟨hn, List.length_pos.mpr hf⟩
      simp [handleSearch, hc, hf]

/-- Witness for C5 at concrete inputs: a refinement-needed response pends
with no fetch, and the backward direction of the characterisation. -/
theorem clarification_gating_witness :
    (handleSearch "iPhone" false (Except.ok demoRef) demoHome).1.refinementFields
      ≠ [] ∧
    (handleSearch "iPhone" false (Except.ok demoRef) demoHome).2 = [] := by
  have h := clarification_gating "iPhone" false (Except.ok demoRef) demoHome
  have hne : (handleSearch "iPhone" false (Except.ok demoRef)
      demoHome).1.refinementFields ≠ [] :=
    h.2.1.mpr ⟨demoRef, rfl, by decide, by decide⟩
  rcases h.1 with ⟨h1, h2, _⟩ | ⟨h1, _, _⟩ | ⟨h1, _, _⟩
  · exact ⟨h1, h2⟩
  · exact absurd h1 hne
  · exact absurd h1 hne

/-- C9: merging refinement selections into the sell details keeps the
already-held value for every key present on both sides, fills only fresh
keys, and is exactly the update `executeSearch` applies to `sellDetails`
after a successful sell fetch with non-empty refinement values. -/
theorem clarification_merge_precedence :
    (∀ (a b : List (String × String)) (k w : String),
      jsLookup b k = some w → jsLookup (spreadMerge a b) k = some w) ∧
    (∀ (a b : List (String × String)) (k v : String),
      jsLookup b k = none → jsLookup a k = some v →
      jsLookup (spreadMerge a b) k = some v) ∧
    (∀ (query : String) (keepImage : Bool) (rv : List (String × String))
      (buyO : Except JsError AnalyzeResponse) (r : SellAdvisorResponse)
      (fo : Except JsError ProductFieldsResponse) (s : HomeState),
      s.mode = Mode.sell → 0 < rv.length →
      (executeSearch query keepImage (some rv) buyO (.ok r) fo s).sellDetails
        = spreadMerge rv s.sellDetails) := by
  refine ⟨?_, ?_, ?_⟩
  · intro a b k w hw
    rw [spreadMerge, jsLookup_append, jsLookup_map_override,
      jsLookup_filter_fresh]
    cases h : jsLookup a k with
    | none =>
        have : a.any (fun kv => kv.1 = k) = false := by
          rw [← jsLookup_isSome_any, h]
          rfl
        simp [this, hw]
    | some v => simp [hw]
  · intro a b k v hb ha
    rw [spreadMerge, jsLookup_append, jsLookup_map_override,
      jsLookup_filter_fresh, ha, hb]
    rfl
  · intro query keepImage rv buyO r fo s hmode hlen
    have hnotbuy : ¬(s.mode = Mode.buy) := by rw [hmode]; intro h; cases h
    cases fo <;>
      simp [executeSearch, hnotbuy, hlen]

/-- Witness for C9 at concrete inputs: the held color survives the merge and
the fresh storage key is filled. -/
theorem clarification_merge_precedence_witness :
    jsLookup (spreadMerge [("color", "red")] [("color", "black")]) "color"
      = some "black" ∧
    jsLookup (spreadMerge [("storage", "128GB")] [("color", "black")])
      "storage" = some "128GB" := by
  constructor
  · exact clarification_merge_precedence.1 [("color", "red")]
      [("color", "black")] "color" "black" (by decide)
  · exact clarification_merge_precedence.2.1 [("storage", "128GB")]
      [("color", "black")] "storage" "128GB" (by decide) (by decide)

/-- C1: along any scheduler trace from an active query, every outstanding
call carries a token no newer than the current generation (which counts the
schedule calls so far, hence is the highest allocated); a completion whose
generation is not current never writes its result, and a completion whose
generation is current does apply it — so the displayed result can only come
from the invocation holding the highest token, regardless of completion
order. -/
theorem generation_monotonicity (q : String)
    (d0 : Option SellAdvisorResponse) (evs : List SchedEvent) (g : ℕ)
    (r : SellAdvisorResponse) :
    (∀ c ∈ (runSched (initScheduler q d0) evs).inFlight,
      c.gen ≤ (runSched (initScheduler q d0) evs).refreshGeneration) ∧
    (q ≠ "" → (runSched (initScheduler q d0) evs).refreshGeneration =
      (evs.filter SchedEvent.isSchedule).length) ∧
    (g ≠ (runSched (initScheduler q d0) evs).refreshGeneration →
      ((schedStep (runSched (initScheduler q d0) evs)
        (.completeOk g r)).1).sellData =
        (runSched (initScheduler q d0) evs).sellData) ∧
    (g = (runSched (initScheduler q d0) evs).refreshGeneration →
      ((schedStep (runSched (initScheduler q d0) evs)
        (.completeOk g r)).1).sellData = some r) := by
  refine ⟨?_, ?_, ?_, ?_⟩
  · have hinv : SchedInv (runSched (initScheduler q d0) evs) := by
      apply runSched_inv
      constructor
      · intro c hc
        simp [initScheduler] at hc
      · intro tm htm
        simp [initScheduler] at htm
    exact hinv.1
  · intro hq
    rw [runSched_gen_count evs (initScheduler q d0) hq]
    simp [initScheduler]
  · intro hg
    simp [schedStep, hg]
  · intro hg
    simp [schedStep, hg]

/-- Witness for C1: after two schedules and the surviving timer firing, the
current generation is 2; a completion carrying token 1 leaves the displayed
data unchanged while a completion carrying token 2 applies its result. -/
theorem generation_monotonicity_witness :
    ((schedStep (runSched (initScheduler "iPhone" none) demoEvs)
      (.completeOk 1 demoResp2)).1).sellData =
      (runSched (initScheduler "iPhone" none) demoEvs).sellData ∧
    ((schedStep (runSched (initScheduler "iPhone" none) demoEvs)
      (.completeOk 2 demoResp2)).1).sellData = some demoResp2 := by
  have hgen : (runSched (initScheduler "iPhone" none) demoEvs).refreshGeneration
      = 2 := by
    rw [runSched_gen_count demoEvs (initScheduler "iPhone" none) (by decide)]
    decide
  constructor
  · exact (generation_monotonicity "iPhone" none demoEvs 1
      demoResp2).2.2.1 (by rw [hgen]; decide)
  · exact (generation_monotonicity "iPhone" none demoEvs 2
      demoResp2).2.2.2 (by rw [hgen])

/-- C2: a burst of schedule calls with an active base query, each arriving
within the 800 ms quiet period of the previous one, dispatches exactly one
remote recompute — at the last call's deadline, carrying the last call's
condition and details and its (highest) generation token; and every new
schedule call replaces the pending debounce timer of the previous one. -/
theorem debounce_coalescing (q : String) (d0 : Option SellAdvisorResponse)
    (bs : List (ℚ × Option ℕ × List (String × String)))
    (bN : ℚ × Option ℕ × List (String × String))
    (hq : q ≠ "") (hgap : burstGapsOK (bs ++ [bN])) :
    dispatches (runSchedActs (initScheduler q d0)
        (burstSchedules (bs ++ [bN]) ++ [SchedEvent.timerFire (bN.1 + 800)]))
      = [SchedAction.dispatch (bs.length + 1) q bN.2.1 bN.2.2
          (some (bs.length + 1))] ∧
    (∀ (s : SchedulerState) (t : ℚ) (c : Option ℕ)
        (d : List (String × String)), s.currentSellQuery ≠ "" →
      ((schedStep s (.schedule t c d)).1).pendingTimer = some
        { deadline := t + 800, gen := s.refreshGeneration + 1,
          query := s.currentSellQuery, condition := c, details := d }) := by
  constructor
  · rw [runSchedActs_append, dispatches, List.filter_append, ← dispatches,
      ← dispatches, burst_schedules_no_dispatch, List.nil_append,
      runSched_burst_state bN bs (initScheduler q d0) hq]
    simp [runSchedActs, schedStep, dispatches, initScheduler,
      SchedAction.isDispatch, List.filter]
  · intro s t c d hq'
    rw [schedStep_schedule_eq s t c d hq']

/-- Witness for C2: two schedule calls 200 ms apart on the query `iPhone`
produce exactly one dispatch, carrying generation 2 and the second call's
condition 8. -/
theorem debounce_coalescing_witness :
    dispatches (runSchedActs (initScheduler "iPhone" none)
        (burstSchedules
          [(0, some 7, [("color", "black")]),
           (200, some 8, [("color", "black")])]
          ++ [SchedEvent.timerFire (200 + 800)]))
      = [SchedAction.dispatch 2 "iPhone" (some 8) [("color", "black")]
          (some 2)] := by
  have h := (debounce_coalescing "iPhone" none
    [(0, some 7, [("color", "black")])] (200, some 8, [("color", "black")])
    (by decide) (by norm_num [burstGapsOK])).1
  exact h

/-- C4: a completion (result or error) whose generation is no longer current
leaves the displayed sell data, the refreshing indicator and the page error
all unchanged — the stale result and error are discarded and the indicator
is not cleared; a result completion whose generation is current applies the
result and clears the refreshing indicator. -/
theorem stale_completion_frame (s : SchedulerState) (g : ℕ)
    (r : SellAdvisorResponse) (isAbort : Bool) :
    (g ≠ s.refreshGeneration →
      ((schedStep s (.completeOk g r)).1).sellData = s.sellData ∧
      ((schedStep s (.completeOk g r)).1).priceRefreshing =
        s.priceRefreshing ∧
      ((schedStep s (.completeErr g isAbort)).1).sellData = s.sellData ∧
      ((schedStep s (.completeErr g isAbort)).1).priceRefreshing =
        s.priceRefreshing ∧
      ((schedStep s (.completeErr g isAbort)).1).pageError = s.pageError) ∧
    (g = s.refreshGeneration →
      ((schedStep s (.completeOk g r)).1).sellData = some r ∧
      ((schedStep s (.completeOk g r)).1).priceRefreshing = false) := by
  constructor <;> intro hg <;> simp [schedStep, hg]

/-- Witness for C4 at a concrete state: generation 2 is current; a stale
completion of generation 1 changes nothing (refreshing stays set), a current
completion of generation 2 applies its result and clears refreshing. -/
theorem stale_completion_frame_witness :
    ((schedStep demoSched (.completeOk 1 demoResp2)).1).sellData =
      demoSched.sellData ∧
    ((schedStep demoSched (.completeOk 1 demoResp2)).1).priceRefreshing =
      demoSched.priceRefreshing ∧
    ((schedStep demoSched (.completeOk 2 demoResp2)).1).sellData =
      some demoResp2 ∧
    ((schedStep demoSched (.completeOk 2 demoResp2)).1).priceRefreshing =
      false := by
  have h1 := (stale_completion_frame demoSched 1 demoResp2 false).1
    (by decide)
  have h2 := (stale_completion_frame demoSched 2 demoResp2 false).2
    (by decide)
  exact ⟨h1.1, h1.2.1, h2.1, h2.2⟩

/-- C8: in sell mode, when the pricing call succeeds and the field-inference
call fails, the submission stays successful — no error, pricing result
applied, empty field list kept; when the pricing call fails, the whole
submission fails with exactly the pricing error's message, or the fallback
message when the error carries none (or an empty one), and the fields
result is never applied even if it succeeded. -/
theorem executePrimary_independent_failure (query : String)
    (keepImage : Bool) (rv : Option (List (String × String)))
    (buyO : Except JsError AnalyzeResponse) (r : SellAdvisorResponse)
    (fErr aErr : JsError) (fieldsO : Except JsError ProductFieldsResponse)
    (s : HomeState) (hmode : s.mode = Mode.sell)
    (hpf : s.productFields = []) (herr : s.error = none) :
    ((executeSearch query keepImage rv buyO (.ok r) (.error fErr) s).error
        = none ∧
      (executeSearch query keepImage rv buyO (.ok r) (.error fErr)
        s).sellData = some r ∧
      (executeSearch query keepImage rv buyO (.ok r) (.error fErr)
        s).productFields = [] ∧
      (executeSearch query keepImage rv buyO (.ok r) (.error fErr)
        s).isLoading = false) ∧
    ((executeSearch query keepImage rv buyO (.error aErr) fieldsO s).error
        = some (jsOrNonEmpty aErr.message "Sell analysis failed") ∧
      (executeSearch query keepImage rv buyO (.error aErr) fieldsO
        s).sellData = s.sellData ∧
      (executeSearch query keepImage rv buyO (.error aErr) fieldsO
        s).productFields = [] ∧
      (executeSearch query keepImage rv buyO (.error aErr) fieldsO
        s).showResults = true ∧
      (executeSearch query keepImage rv buyO (.error aErr) fieldsO
        s).isLoading = false) := by
  have hnotbuy : ¬(s.mode = Mode.buy) := by
    rw [hmode]
    intro hcon
    cases hcon
  constructor
  · cases rv with
    | none => simp [executeSearch, hnotbuy, herr, hpf]
    | some v =>
        by_cases hv : v.length > 0 <;>
          simp [executeSearch, hnotbuy, herr, hpf, hv]
  · simp [executeSearch, hnotbuy, herr, hpf]

/-- Witness for C8 at a concrete state: a failed fields call leaves success
with pricing applied; a failed pricing call surfaces exactly its message. -/
theorem executePrimary_independent_failure_witness :
    ((executeSearch "iPhone" false none (.error { message := none })
        (.ok demoResp) (.error { message := some "fields failed" })
        demoHome).error = none ∧
      (executeSearch "iPhone" false none (.error { message := none })
        (.ok demoResp) (.error { message := some "fields failed" })
        demoHome).sellData = some demoResp) ∧
    (executeSearch "iPhone" false none (.error { message := none })
        (.error { message := some "boom" })
        (.ok { query := "iPhone", fields := [] }) demoHome).error
      = some "boom" := by
  have h := executePrimary_independent_failure "iPhone" false none
    (.error { message := none }) demoResp { message := some "fields failed" }
    { message := some "boom" } (.ok { query := "iPhone", fields := [] })
    demoHome rfl rfl rfl
  refine ⟨⟨h.1.1, h.1.2.1⟩, ?_⟩
  have hmsg : jsOrNonEmpty (some "boom") "Sell analysis failed" = "boom" := by
    simp only [jsOrNonEmpty]
    rw [if_neg (by decide)]
  rw [h.2.1, hmsg]

/-! ### Progress-simulator lemmas -/

/-- Bounds of the unpaused curve for nonnegative elapsed time. -/
theorem gsp_bounds (e : ℚ → ℚ) (m : Mode) (elapsed : ℚ)
    (hrange : ∀ x : ℚ, x ≤ 0 → 0 ≤ e x ∧ e x ≤ 1) (h0 : 0 ≤ elapsed) :
    0 ≤ getSimulatedProgress e m false elapsed ∧
      getSimulatedProgress e m false elapsed ≤ 92 := by
  have hsp : (0 : ℚ) ≤ (if m = Mode.buy then (6 : ℚ)/100 else 8/100) := by
    cases m
    · norm_num
    · rw [if_neg (fun h => Mode.noConfusion h)]
      norm_num
  unfold getSimulatedProgress
  by_cases hlt : elapsed < 3000
  · rw [if_pos hlt]
    simp only [Bool.false_eq_true, if_false]
    constructor
    · apply le_min (by norm_num)
      positivity
    · exact le_trans (min_le_left _ _) (by norm_num)
  · rw [if_neg hlt]
    simp only [Bool.false_eq_true, if_false]
    have ht : 0 ≤ (elapsed - 3000) / 1000 := by
      have h3 : (3000 : ℚ) ≤ elapsed := not_lt.mp hlt
      have : (0 : ℚ) ≤ elapsed - 3000 := by linarith
      positivity
    have harg : -((if m = Mode.buy then (6 : ℚ)/100 else 8/100) *
        ((elapsed - 3000) / 1000)) ≤ 0 :=
      neg_nonpos.mpr (mul_nonneg hsp ht)
    obtain ⟨he0, he1⟩ := hrange _ harg
    constructor
    · apply le_min (by norm_num)
      have hterm : 0 ≤ ((92 : ℚ) - 25) *
          (1 - e (-((if m = Mode.buy then (6 : ℚ)/100 else 8/100) *
            ((elapsed - 3000) / 1000)))) := by
        apply mul_nonneg (by norm_num)
        linarith
      linarith
    · exact min_le_left _ _

/-- Monotonicity of the unpaused curve in elapsed time. -/
theorem gsp_mono (e : ℚ → ℚ) (m : Mode)
    (hrange : ∀ x : ℚ, x ≤ 0 → 0 ≤ e x ∧ e x ≤ 1)
    (hmono : ∀ x y : ℚ, x ≤ y → y ≤ 0 → e x ≤ e y)
    (t1 t2 : ℚ) (h0 : 0 ≤ t1) (h12 : t1 ≤ t2) :
    getSimulatedProgress e m false t1 ≤
      getSimulatedProgress e m false t2 := by
  have hsp : (0 : ℚ) ≤ (if m = Mode.buy then (6 : ℚ)/100 else 8/100) := by
    cases m
    · norm_num
    · rw [if_neg (fun h => Mode.noConfusion h)]
      norm_num
  unfold getSimulatedProgress
  by_cases hlt2 : t2 < 3000
  · have hlt1 : t1 < 3000 := lt_of_le_of_lt h12 hlt2
    rw [if_pos hlt1, if_pos hlt2]
    simp only [Bool.false_eq_true, if_false]
    exact min_le_min le_rfl (by linarith)
  · have harg2 : -((if m = Mode.buy then (6 : ℚ)/100 else 8/100) *
        ((t2 - 3000) / 1000)) ≤ 0 := by
      apply neg_nonpos.mpr
      apply mul_nonneg hsp
      have h3 : (3000 : ℚ) ≤ t2 := not_lt.mp hlt2
      have : (0 : ℚ) ≤ t2 - 3000 := by linarith
      positivity
    obtain ⟨he0, he1⟩ := hrange _ harg2
    by_cases hlt1 : t1 < 3000
    · rw [if_pos hlt1, if_neg hlt2]
      simp only [Bool.false_eq_true, if_false]
      have hle : min (25 : ℚ) (t1 / 3000 * 25) ≤ 25 := min_le_left _ _
      have hge : (25 : ℚ) ≤ min 92
          (25 + (92 - 25) * (1 - e (-((if m = Mode.buy then (6 : ℚ)/100
            else 8/100) * ((t2 - 3000) / 1000))))) := by
        apply le_min (by norm_num)
        have : 0 ≤ ((92 : ℚ) - 25) *
            (1 - e (-((if m = Mode.buy then (6 : ℚ)/100 else 8/100) *
              ((t2 - 3000) / 1000)))) := by
          apply mul_nonneg (by norm_num)
          linarith
        linarith
      exact le_trans hle hge
    · rw [if_neg hlt1, if_neg hlt2]
      simp only [Bool.false_eq_true, if_false]
      apply min_le_min le_rfl
      have hm : e (-((if m = Mode.buy then (6 : ℚ)/100 else 8/100) *
            ((t2 - 3000) / 1000))) ≤
          e (-((if m = Mode.buy then (6 : ℚ)/100 else 8/100) *
            ((t1 - 3000) / 1000))) := by
        apply hmono
        · have : (t1 - 3000) / 1000 ≤ (t2 - 3000) / 1000 := by linarith
          have hmul := mul_le_mul_of_nonneg_left this hsp
          linarith
        · apply neg_nonpos.mpr
          apply mul_nonneg hsp
          have h3 : (3000 : ℚ) ≤ t1 := not_lt.mp hlt1
          have : (0 : ℚ) ≤ t1 - 3000 := by linarith
          positivity
      have hmul := mul_le_mul_of_nonneg_left (by linarith :
        (1 - e (-((if m = Mode.buy then (6 : ℚ)/100 else 8/100) *
          ((t1 - 3000) / 1000)))) ≤
        (1 - e (-((if m = Mode.buy then (6 : ℚ)/100 else 8/100) *
          ((t2 - 3000) / 1000))))) (by norm_num : (0:ℚ) ≤ 92 - 25)
      linarith

/-- Loader invariant carried along a chronological trace: the progress value
is within bounds and the animation start time is in the past. -/
def LoaderInv (t0 : ℚ) (s : LoaderState) : Prop :=
  0 ≤ s.progress ∧ s.progress ≤ 100 ∧ s.startTime ≤ t0

theorem stepLoader_inv (e : ℚ → ℚ) (m : Mode)
    (hrange : ∀ x : ℚ, x ≤ 0 → 0 ≤ e x ∧ e x ≤ 1)
    (s : LoaderState) (ev : LoaderEvent) (t0 : ℚ)
    (hinv : LoaderInv t0 s) (ht : t0 ≤ ev.time) :
    LoaderInv ev.time (stepLoader e m s ev) := by
  obtain ⟨h1, h2, h3⟩ := hinv
  have h3' : s.startTime ≤ ev.time := le_trans h3 ht
  cases ev with
  | propsEffect now loading paused =>
      simp only [LoaderEvent.time] at h3' ⊢
      cases loading with
      | false =>
          cases hw : s.wasLoading with
          | false => exact ⟨by simpa [stepLoader, hw] using h1,
              by simpa [stepLoader, hw] using h2,
              by simpa [stepLoader, hw] using h3'⟩
          | true => refine ⟨?_, ?_, ?_⟩ <;> simp [stepLoader, hw]
                    · exact h3'
      | true =>
          by_cases hz : s.progress = (0 : ℚ) ∨ s.completed = true <;>
            cases paused <;>
              refine ⟨?_, ?_, ?_⟩ <;>
                simp [stepLoader, hz] <;>
                  first
                    | exact h1
                    | exact h2
                    | exact h3'
  | frame now =>
      simp only [LoaderEvent.time] at h3' ⊢
      cases hr : s.rafActive with
      | false => exact ⟨by simpa [stepLoader, hr] using h1,
          by simpa [stepLoader, hr] using h2,
          by simpa [stepLoader, hr] using h3'⟩
      | true =>
          have hb := gsp_bounds e m (now - s.startTime) hrange
            (by linarith)
          refine ⟨?_, ?_, ?_⟩ <;> simp [stepLoader, hr]
          · exact hb.1
          · linarith [hb.2]
          · exact h3'
  | graceFire now =>
      simp only [LoaderEvent.time] at h3' ⊢
      cases hc : s.completionTimer with
      | none => exact ⟨by simpa [stepLoader, hc] using h1,
          by simpa [stepLoader, hc] using h2,
          by simpa [stepLoader, hc] using h3'⟩
      | some tf =>
          by_cases hf : tf = now <;>
            refine ⟨?_, ?_, ?_⟩ <;>
              simp [stepLoader, hc, hf] <;>
                first
                  | exact h1
                  | exact h2
                  | exact h3'

theorem runLoader_bounds (e : ℚ → ℚ) (m : Mode)
    (hrange : ∀ x : ℚ, x ≤ 0 → 0 ≤ e x ∧ e x ≤ 1)
    (evs : List LoaderEvent) :
    ∀ (s : LoaderState) (t0 : ℚ), LoaderInv t0 s → chronLoader t0 evs →
      0 ≤ (runLoader e m s evs).progress ∧
        (runLoader e m s evs).progress ≤ 100 := by
  induction evs with
  | nil => intro s t0 hinv hchron; exact ⟨hinv.1, hinv.2.1⟩
  | cons ev evs ih =>
      intro s t0 hinv hchron
      obtain ⟨ht, hchron'⟩ := hchron
      exact ih (stepLoader e m s ev) ev.time
        (stepLoader_inv e m hrange s ev t0 hinv ht) hchron'

/-- A concrete loader trace: loading starts at time 0, one animation frame
runs at 1200 ms, then the refinement fields arrive and the effect re-runs
paused; a later frame is ignored since the update loop is stopped. -/
def pausedTrace : List LoaderEvent :=
  [ .propsEffect 0 true false, .frame 1200,
    .propsEffect 1200 true true, .frame 5000 ]

/-- C7 counterexample: in the paused (clarification-pending) phase the
progress value is NOT the low ceiling 20 — pausing stops the update loop and
freezes the value computed by the last running frame (here 10, from the
linear ramp at 1200 ms), because the paused-capped curve is never evaluated
by the loop. The final state is visible, not completed, with the loop
stopped (the paused phase), and its value is 10, not 20. -/
theorem progress_paused_not_low_ceiling :
    (runLoader expStub Mode.buy initLoader pausedTrace).visible = true ∧
    (runLoader expStub Mode.buy initLoader pausedTrace).completed = false ∧
    (runLoader expStub Mode.buy initLoader pausedTrace).rafActive = false ∧
    (runLoader expStub Mode.buy initLoader pausedTrace).progress = 10 ∧
    ¬((runLoader expStub Mode.buy initLoader pausedTrace).progress = 20) := by
  have hrun : runLoader expStub Mode.buy initLoader pausedTrace =
      { progress := 10, visible := true, completed := false, startTime := 0,
        wasLoading := true, rafActive := false, completionTimer := none } := by
    show runLoader expStub Mode.buy
      (stepLoader expStub Mode.buy initLoader (.propsEffect 0 true false))
      [.frame 1200, .propsEffect 1200 true true, .frame 5000] = _
    have h1 : stepLoader expStub Mode.buy initLoader
        (.propsEffect 0 true false) =
        { progress := 0, visible := true, completed := false, startTime := 0,
          wasLoading := true, rafActive := true, completionTimer := none } := by
      simp [stepLoader, initLoader]
    rw [h1]
    have h2 : stepLoader expStub Mode.buy
        { progress := 0, visible := true, completed := false, startTime := 0,
          wasLoading := true, rafActive := true, completionTimer := none }
        (.frame 1200) =
        { progress := 10, visible := true, completed := false, startTime := 0,
          wasLoading := true, rafActive := true, completionTimer := none } := by
      simp only [stepLoader]
      norm_num [getSimulatedProgress]
    show runLoader expStub Mode.buy _
      [.propsEffect 1200 true true, .frame 5000] = _
    rw [h2]
    have h3 : stepLoader expStub Mode.buy
        { progress := 10, visible := true, completed := false, startTime := 0,
          wasLoading := true, rafActive := true, completionTimer := none }
        (.propsEffect 1200 true true) =
        { progress := 10, visible := true, completed := false, startTime := 0,
          wasLoading := true, rafActive := false, completionTimer := none } := by
      norm_num [stepLoader]
    show runLoader expStub Mode.buy _ [.frame 5000] = _
    rw [h3]
    simp [runLoader, stepLoader]
  rw [hrun]
  norm_num

/-- C7 amended: along every chronological loader trace the progress value
stays in [0, 100]; the running curve is monotone in elapsed time (so the
value is non-decreasing while the loop runs, and it jumps to the fixed
value 100 when finalizing); and while paused the loop is stopped, so the
value is frozen at whatever the last running frame produced — it equals the
low ceiling 20 only by coincidence, not in general. Assumptions on `e` are
satisfied by the real exponential on nonpositive arguments. -/
theorem progress_boundedness_amended (e : ℚ → ℚ) (m : Mode)
    (hrange : ∀ x : ℚ, x ≤ 0 → 0 ≤ e x ∧ e x ≤ 1)
    (hmono : ∀ x y : ℚ, x ≤ y → y ≤ 0 → e x ≤ e y) :
    (∀ (evs : List LoaderEvent) (t0 : ℚ), 0 ≤ t0 → chronLoader t0 evs →
      0 ≤ (runLoader e m initLoader evs).progress ∧
        (runLoader e m initLoader evs).progress ≤ 100) ∧
    (∀ t1 t2 : ℚ, 0 ≤ t1 → t1 ≤ t2 →
      getSimulatedProgress e m false t1 ≤
        getSimulatedProgress e m false t2) ∧
    (∀ (s : LoaderState) (now : ℚ), s.rafActive = false →
      stepLoader e m s (.frame now) = s) := by
  refine ⟨?_, gsp_mono e m hrange hmono, ?_⟩
  · intro evs t0 h0 hchron
    exact runLoader_bounds e m hrange evs initLoader t0
      ⟨le_refl 0, by norm_num [initLoader], by simpa [initLoader] using h0⟩
      hchron
  · intro s now hr
    simp [stepLoader, hr]

/-- Witness for the amended C7 at concrete inputs: a short chronological
trace stays within bounds, the curve is monotone between 1000 and 2000 ms,
and a frame is a no-op on a stopped loop. -/
theorem progress_boundedness_amended_witness :
    (0 ≤ (runLoader expStub Mode.buy initLoader
        [.propsEffect 0 true false, .frame 500]).progress ∧
      (runLoader expStub Mode.buy initLoader
        [.propsEffect 0 true false, .frame 500]).progress ≤ 100) ∧
    getSimulatedProgress expStub Mode.buy false 1000 ≤
      getSimulatedProgress expStub Mode.buy false 2000 := by
  have h := progress_boundedness_amended expStub Mode.buy
    (fun x hx => by norm_num [expStub])
    (fun x y hxy hy => by norm_num [expStub])
  constructor
  · exact h.1 [.propsEffect 0 true false, .frame 500] 0 le_rfl
      (by norm_num [chronLoader, LoaderEvent.time])
  · exact h.2.1 1000 2000 (by norm_num) (by norm_num)

/-- C3 (code level): the scheduler does abort the previous invocation's
handle on each new schedule call, but no abort handle ever reaches the
network layer — `sellAdvisor` in `api.ts` declares no signal parameter and
builds its fetch request without one, so the request built for any
dispatched recompute carries no signal, whatever handle the scheduler
passed. Evaluated at the superseded first call of the demo trace. -/
theorem abort_not_network_level :
    (∀ (query : String) (condition : Option ℕ)
        (details : Option (List (String × String))) (signal : Option ℕ),
      (sellAdvisorRequest query condition details signal).signal = none) ∧
    ((schedStep demoSchedAfterFirst
        (.schedule 1000 (some 8) [("color", "black")])).2 =
      [SchedAction.abortSignal 1]) := by
  exact ⟨fun _ _ _ _ => rfl, by decide⟩

end MarketMaker
